import Mathlib

/-!
# Mailroom: identifier model, error classification and the default notifier

A shallow embedding of the `mailroom` packages `identifier`, `notifier` and
`notifier/slack`.

* `DefaultNotifier.Push` (notifier/default.go) and `Transport.Push`
  (notifier/slack/slack.go) are translated from their Go source.
* The `identifier` package, `notifier.Permanent` and the `user` package are known
  through their tests and callers only; they are modelled from the specification and
  marked as such.
* Go `error` values are modelled by the tree `GoError`. Values built by `errors.New`,
  `fmt.Errorf`, `notifier.Permanent` and `errors.Join` are pointers and carry the
  address they were allocated at, so that `==` on them is pointer identity; a function
  that allocates an error takes the address of the allocation as an argument. Errors
  of any other dynamic type are `valueError`s, which record whether their type is
  comparable. `GoError.Is` follows the standard library `errors.Is`: the `==` test is
  made only for a target of comparable type, and the walk goes through `Unwrap() error`
  and `Unwrap() []error`. Error types with an `Is` method of their own are not modelled.
* Side effects of external collaborators (transports, the Slack client) are modelled
  by explicit state passing over an arbitrary world type `σ`. The claims on the
  dispatcher are stated against `invokeInOrder`, which applies the `Push` functions of
  a list of transports one after the other; the call log kept by the model plays the
  role of the call-count probes of the tests.
-/

/-! ## Go errors -/

/-- A Go `error` value (non-nil). `nil` errors are `none : Option GoError`. -/
inductive GoError where
  /-- Result of `errors.New(s)`: a pointer allocated at `addr`, a leaf without
  `Unwrap`. -/
  | errorString (addr : Nat) (s : String)
  /-- Result of `fmt.Errorf(msg + "%w", err)`: a pointer allocated at `addr`;
  `Unwrap() error` gives `err`. -/
  | wrapError (addr : Nat) (msg : String) (err : GoError)
  /-- Result of `notifier.Permanent(err)`: a pointer allocated at `addr`;
  `Unwrap() error` gives `err`. -/
  | permanentError (addr : Nat) (err : GoError)
  /-- Result of `errors.Join(errs...)`: a pointer allocated at `addr`;
  `Unwrap() []error` gives `errs`. -/
  | joinError (addr : Nat) (errs : List GoError)
  /-- An error of any other dynamic type `typeName`, held by value, without `Unwrap`;
  `comparable` tells whether the type is comparable (a struct with a slice field, such
  as the Slack client's `SlackErrorResponse`, is not). -/
  | valueError (typeName : String) (comparable : Bool) (content : String)

namespace GoError

/-- Whether the dynamic type of the error is comparable
(`reflectlite.TypeOf(err).Comparable()`): pointers are, other values as declared. -/
def typeComparable : GoError → Bool
  | valueError _ c _ => c
  | _ => true

mutual
/-- Identity of two error values: the same dynamic type and, for pointers, the same
address (two values at one address are one object, with the same contents); for other
values, equal contents. -/
def beq : GoError → GoError → Bool
  | errorString a s, errorString b t => a == b && s == t
  | wrapError a m e, wrapError b m' e' => a == b && m == m' && beq e e'
  | permanentError a e, permanentError b e' => a == b && beq e e'
  | joinError a es, joinError b es' => a == b && beqList es es'
  | valueError n c x, valueError n' c' x' => n == n' && c == c' && x == x'
  | _, _ => false
/-- Pointwise identity of two error lists. -/
def beqList : List GoError → List GoError → Bool
  | [], [] => true
  | a :: as, b :: bs => beq a b && beqList as bs
  | _, _ => false
end

/-- The test `isComparable && err == target` of `errors.Is`: a target whose type is not
comparable is never equal to anything. -/
def equalsTarget (err target : GoError) : Bool :=
  typeComparable target && beq err target

mutual
/-- The tree walk of `errors.Is` for non-nil `err` and `target`: `err` matches when
`isComparable && err == target`, or when what it unwraps to matches (for
`Unwrap() []error`, when any member matches). -/
def Is : GoError → GoError → Bool
  | errorString a s, target => equalsTarget (errorString a s) target
  | wrapError a m e, target => equalsTarget (wrapError a m e) target || Is e target
  | permanentError a e, target => equalsTarget (permanentError a e) target || Is e target
  | joinError a es, target => equalsTarget (joinError a es) target || IsAny es target
  | valueError n c x, target => equalsTarget (valueError n c x) target
/-- Some member of the list matches `target`. -/
def IsAny : List GoError → GoError → Bool
  | [], _ => false
  | e :: es, target => Is e target || IsAny es target
end

mutual
/-- Modelled from the spec: the classification probe for `Permanent` (the function
`notifier.IsPermanent` is known through the spec only). An error is classified
Permanent when a `Permanent` wrapper occurs in its unwrapping tree. -/
def IsPermanent : GoError → Bool
  | errorString _ _ => false
  | wrapError _ _ e => IsPermanent e
  | permanentError _ _ => true
  | joinError _ es => IsPermanentAny es
  | valueError _ _ _ => false
/-- Some member of the list is classified Permanent. -/
def IsPermanentAny : List GoError → Bool
  | [] => false
  | e :: es => IsPermanent e || IsPermanentAny es
end

end GoError

/-- Go `errors.Join(errs...)` for a list of non-nil errors: nil when the list is empty,
otherwise a join allocated at `addr`. -/
def errorsJoin (addr : Nat) (errs : List GoError) : Option GoError :=
  if errs.length = 0 then none else some (GoError.joinError addr errs)

/-! ## Package identifier -/

namespace identifier

/-- Go `type NamespaceAndKind string`. -/
abbrev NamespaceAndKind := String

/-- Go `type Kind string`. -/
abbrev Kind := String

/-- The separator between namespace and kind. -/
def separator : Char := '/'

/-- Modelled from the spec: the kind constant `id` (declared in the identifier package,
which is not in the available sources). -/
def KindID : Kind := "id"

/-- Modelled from the spec: `newKey(namespace, kind)` (identifier package source is not
available). The key is serialized as `namespace/kind`, or as the bare `kind` when the
namespace is empty. -/
def NewNamespaceAndKind (ns : String) (kind : Kind) : NamespaceAndKind :=
  if ns = "" then kind else ns ++ String.singleton separator ++ kind

/-- Cut a character list at the first occurrence of `sep`: the text before and the text
after it, or `none` when `sep` does not occur. -/
def cutFirst (sep : Char) : List Char → Option (List Char × List Char)
  | [] => none
  | c :: cs =>
    if c = sep then some ([], cs)
    else (cutFirst sep cs).map (fun p => (c :: p.1, p.2))

/-- Modelled from the spec: `split(key)` (identifier package source is not available).
Splitting on the first separator yields `(namespace, kind)`; a value with no separator
yields `("", value)`. -/
def NamespaceAndKind.Split (n : NamespaceAndKind) : String × String :=
  match cutFirst separator n.data with
  | none => ("", n)
  | some (before, after) => (String.mk before, String.mk after)

/-- Modelled from the spec: `namespace(key)`, a wrapper around `Split`. -/
def NamespaceAndKind.Namespace (n : NamespaceAndKind) : String :=
  (NamespaceAndKind.Split n).1

/-- Modelled from the spec: `kind(key)`, a wrapper around `Split`. -/
def NamespaceAndKind.Kind (n : NamespaceAndKind) : String :=
  (NamespaceAndKind.Split n).2

/-- Go `type Identifier struct { NamespaceAndKind; Value string }`. -/
structure Identifier where
  NamespaceAndKind : NamespaceAndKind
  Value : String
deriving DecidableEq, Repr

/-- The value argument of `New`: a string or a 64-bit signed integer. -/
inductive IdValue where
  | str (s : String)
  | int64 (n : Int)

/-- The decimal digit character of `d` (for `d < 10`). -/
def digitChar (d : Nat) : Char := Char.ofNat (48 + d)

/-- The decimal digits of `n`, most significant first (`[0]` for zero). -/
def decimalDigits (n : Nat) : List Nat :=
  if n = 0 then [0] else (Nat.digits 10 n).reverse

/-- The decimal digit characters of a natural number, most significant first. -/
def formatNat (n : Nat) : List Char :=
  (decimalDigits n).map digitChar

/-- Modelled from the spec: the canonical base-10 rendering of an integer (a leading
`-` for negative numbers, then the digits of the magnitude; no separators). -/
def FormatInt (n : Int) : String :=
  String.mk (if n < 0 then '-' :: formatNat n.natAbs else formatNat n.natAbs)

/-- The value of a decimal digit character. -/
def digitVal (c : Char) : Option Nat :=
  if 48 ≤ c.toNat ∧ c.toNat ≤ 57 then some (c.toNat - 48) else none

/-- Read a run of decimal digits onto the accumulator `acc`; `none` on any other
character. -/
def parseDigits : Nat → List Char → Option Nat
  | acc, [] => some acc
  | acc, c :: cs =>
    match digitVal c with
    | none => none
    | some d => parseDigits (acc * 10 + d) cs

/-- Parse a decimal integer: an optional leading `-` followed by one or more digits. -/
def ParseInt (s : String) : Option Int :=
  match s.data with
  | [] => none
  | c :: cs =>
    if c = '-' then
      if cs = [] then none else (parseDigits 0 cs).map (fun m => - Int.ofNat m)
    else (parseDigits 0 (c :: cs)).map Int.ofNat

/-- Modelled from the spec: `newIdentity(keyOrString, value)` (identifier package source
is not available). The key is taken as given; a string value is kept, an integer value
is rendered in base 10. -/
def New (namespaceAndKind : NamespaceAndKind) (value : IdValue) : Identifier :=
  match value with
  | IdValue.str s => { NamespaceAndKind := namespaceAndKind, Value := s }
  | IdValue.int64 n => { NamespaceAndKind := namespaceAndKind, Value := FormatInt n }

/-- Go `type Collection map[NamespaceAndKind]string`: `nil` is the nil map, `entries`
an allocated map listing its key/value pairs. -/
inductive Collection where
  | nil
  | entries (es : List (NamespaceAndKind × String))
deriving DecidableEq, Repr

/-- The key/value pairs of a collection (none for the nil map). -/
def Collection.pairs : Collection → List (NamespaceAndKind × String)
  | Collection.nil => []
  | Collection.entries es => es

/-- A collection is a well-formed map when no key occurs twice. -/
def Collection.WF (c : Collection) : Prop :=
  (c.pairs.map Prod.fst).Nodup

instance (c : Collection) : Decidable c.WF :=
  inferInstanceAs (Decidable (c.pairs.map Prod.fst).Nodup)

/-- Assignment `m[k] = v` on the pairs of a map: overwrite the value under `k` when
present, add the pair otherwise. -/
def setEntry (k : NamespaceAndKind) (v : String) :
    List (NamespaceAndKind × String) → List (NamespaceAndKind × String)
  | [] => [(k, v)]
  | (k', v') :: rest =>
    if k' = k then (k, v) :: rest else (k', v') :: setEntry k v rest

/-- Assignment `c[k] = v`; a nil receiver is allocated first. -/
def Collection.set (c : Collection) (k : NamespaceAndKind) (v : String) : Collection :=
  Collection.entries (setEntry k v c.pairs)

/-- Modelled from the spec: lookup of the value stored under a key, `none` when the key
is absent (Go `Get(key) (string, bool)`; identifier package source is not available). -/
def Collection.Get (c : Collection) (k : NamespaceAndKind) : Option String :=
  (c.pairs.find? (fun kv => kv.1 = k)).map Prod.snd

/-- Modelled from the spec: construct an IdentitySet from a list of identities; later
entries overwrite earlier ones sharing a key (identifier package source is not
available). -/
def NewCollection (ids : List Identifier) : Collection :=
  ids.foldl (fun c id => c.set id.NamespaceAndKind id.Value) (Collection.entries [])

/-- Modelled from the spec: merge another IdentitySet into the receiver; every key of
the other set is overwritten, other keys are untouched, an empty or absent argument is
a no-op, and an absent receiver is allocated on the first write (identifier package
source is not available). Returns the receiver after the call. -/
def Collection.Add (c other : Collection) : Collection :=
  other.pairs.foldl (fun acc kv => acc.set kv.1 kv.2) c

/-- Modelled from the spec: enumerate the set as a list of identities (identifier
package source is not available). Go leaves the order unspecified; the model lists the
pairs in storage order and claims are stated up to permutation. -/
def Collection.ToList (c : Collection) : List Identifier :=
  c.pairs.map (fun kv => { NamespaceAndKind := kv.1, Value := kv.2 })

end identifier

/-! ## Package common -/

namespace common

/-- Go `type EventType string`. -/
abbrev EventType := String

/-- Go `type TransportID string` (named `TransportKey` in the Slack transport). -/
abbrev TransportID := String

/-- A Slack message option (`slack.MsgOption`): a plain text option as built by
`slack.MsgOptionText`, or any other option, identified by a tag. -/
inductive MsgOption where
  | text (message : String) (escape : Bool)
  | other (tag : Nat)
deriving DecidableEq, Repr

/-- A notification: its event type (Go field `Type`, spelled `Typ` here), the recipient
identifiers, the transport-aware rendering of its message, and the optional `RichNotification` capability
(`GetSlackOptions`), absent when `none`. -/
structure Notification where
  Typ : EventType
  Recipient : identifier.Collection
  Render : TransportID → String
  SlackOptions : Option (List MsgOption)

end common

/-- Go `context.Context`, reduced to whether it is cancelled. -/
structure Context where
  cancelled : Bool
deriving DecidableEq, Repr

/-! ## Package user (external collaborator) -/

namespace user

/-- A resolved recipient: its identifiers and its preference function
`Wants(eventType, transport)`. -/
structure User where
  Identifiers : identifier.Collection
  Wants : common.EventType → common.TransportID → Bool

/-- Go `user.Store`: `Find` resolves a set of identifiers to a user or fails. -/
structure Store where
  Find : identifier.Collection → Except GoError User

/-- Go `user.ErrUserNotFound`: a package-level `errors.New` value, allocated once (at
address 1 in the model). -/
def ErrUserNotFound : GoError := GoError.errorString 1 "user not found"

end user


/-! ## Package notifier -/

namespace notifier

/-- Modelled from the spec: `Permanent(err)` wraps an underlying error, marking it as
non-retriable, and unwraps to it (`notifier.Permanent` is known through its callers
only). The wrapper is allocated at `addr`. -/
def Permanent (addr : Nat) (err : GoError) : GoError := GoError.permanentError addr err

/-- Go `notifier.Transport`: an identifier and a `Push` that may fail and may change
the world `σ`. -/
structure Transport (σ : Type) where
  ID : common.TransportID
  Push : Context → common.Notification → σ → Option GoError × σ

/-- One recorded invocation of a transport's `Push`: the position of the transport in
the registered list, its identifier, the context it was given and what it returned. -/
structure Call where
  index : Nat
  id : common.TransportID
  ctx : Context
  result : Option GoError

/-- Go `type DefaultNotifier struct { userStore; transports }`. -/
structure DefaultNotifier (σ : Type) where
  userStore : user.Store
  transports : List (Transport σ)

/-- Go `notifier.New(userStore, transports...)`. -/
def New {σ : Type} (userStore : user.Store) (transports : List (Transport σ)) :
    DefaultNotifier σ :=
  { userStore := userStore, transports := transports }

/-- Outcome of `DefaultNotifier.Push`: the returned error, the world afterwards and the
transport invocations made, in order. -/
structure PushResult (σ : Type) where
  err : Option GoError
  state : σ
  calls : List Call

/-- The `for _, transport := range d.transports` loop of `DefaultNotifier.Push`, from
position `i` on, with the errors collected so far in `errs`. -/
def pushLoop {σ : Type} (recipientUser : user.User) (ctx : Context)
    (notification : common.Notification) :
    List (Transport σ) → Nat → List GoError → σ → List Call → List GoError × σ × List Call
  | [], _, errs, s, calls => (errs, s, calls)
  | transport :: rest, i, errs, s, calls =>
    if !recipientUser.Wants notification.Typ transport.ID then
      pushLoop recipientUser ctx notification rest (i + 1) errs s calls
    else
      match transport.Push ctx notification s with
      | (some err, s') =>
        pushLoop recipientUser ctx notification rest (i + 1) (errs ++ [err]) s'
          (calls ++ [{ index := i, id := transport.ID, ctx := ctx, result := some err }])
      | (none, s') =>
        pushLoop recipientUser ctx notification rest (i + 1) errs s'
          (calls ++ [{ index := i, id := transport.ID, ctx := ctx, result := none }])

/-- Go `func (d *DefaultNotifier) Push(ctx, notification) error`; `addr` is the address
at which the error value built by this call (`fmt.Errorf` or `errors.Join`) is
allocated. -/
def DefaultNotifier.Push {σ : Type} (d : DefaultNotifier σ) (ctx : Context)
    (notification : common.Notification) (s : σ) (addr : Nat) : PushResult σ :=
  match d.userStore.Find notification.Recipient with
  | Except.error err =>
    { err := some (GoError.wrapError addr "failed to find recipient user: " err),
      state := s, calls := [] }
  | Except.ok recipientUser =>
    match pushLoop recipientUser ctx notification d.transports 0 [] s [] with
    | (errs, s', calls) =>
      if errs.length > 0 then
        { err := errorsJoin addr errs, state := s', calls := calls }
      else
        { err := none, state := s', calls := calls }

/-! ### Reference semantics of the fan-out (spec 4.5, steps 2 to 4)

These definitions follow the words of the specification and do not refer to `pushLoop`;
the claims compare `DefaultNotifier.Push` with them. -/

/-- The registered transports the recipient wants for this event type, in registration
order. -/
def wantedTransports {σ : Type} (u : user.User) (eventType : common.EventType)
    (ts : List (Transport σ)) : List (Transport σ) :=
  ts.filter (fun t => u.Wants eventType t.ID)

/-- Invoke `Push(ctx, notification)` on each transport of the list, one after the other,
each in the world left by the previous one: what each invocation returned, in order,
and the world after the last one. -/
def invokeInOrder {σ : Type} (ctx : Context) (notification : common.Notification) :
    List (Transport σ) → σ → List (Option GoError) × σ
  | [], s => ([], s)
  | t :: ts, s =>
    ((t.Push ctx notification s).1 ::
        (invokeInOrder ctx notification ts (t.Push ctx notification s).2).1,
      (invokeInOrder ctx notification ts (t.Push ctx notification s).2).2)

/-- The non-nil errors among the results of a list of invocations, in order. -/
def failures (results : List (Option GoError)) : List GoError :=
  results.filterMap id

/-- The registered transports the user wants for this event type, each with its position
(counted from `i`) and identifier, in registration order. -/
def eligible {σ : Type} (u : user.User) (eventType : common.EventType) (i : Nat)
    (ts : List (Transport σ)) : List (Nat × common.TransportID) :=
  ((ts.enumFrom i).filter (fun p => u.Wants eventType p.2.ID)).map (fun p => (p.1, p.2.ID))

end notifier

/-! ## Package notifier/slack -/

namespace slack

/-- Go `var ID = identifier.NewNamespaceAndKind("slack.com", identifier.KindID)`. -/
def ID : identifier.NamespaceAndKind :=
  identifier.NewNamespaceAndKind "slack.com" identifier.KindID

/-- The Slack API client, reduced to `PostMessageContext`; of its results only the
error is kept. -/
structure Client (σ : Type) where
  PostMessageContext : Context → String → List common.MsgOption → σ → Option GoError × σ

/-- Go `type Transport struct { key; client }`. -/
structure Transport (σ : Type) where
  key : common.TransportID
  client : Client σ

/-- One recorded call of `client.PostMessageContext`. -/
structure PostCall where
  ctx : Context
  channelID : String
  options : List common.MsgOption
deriving DecidableEq, Repr

/-- Outcome of the Slack `Transport.Push`: the returned error, the world afterwards and
the client calls made. -/
structure PushResult (σ : Type) where
  err : Option GoError
  state : σ
  posts : List PostCall

/-- Go `func (s *Transport) getMessageOptions(notification) []slack.MsgOption`. -/
def Transport.getMessageOptions {σ : Type} (s : Transport σ)
    (notification : common.Notification) : List common.MsgOption :=
  let message := notification.Render s.key
  let opts : List common.MsgOption :=
    if message ≠ "" then [common.MsgOption.text message false] else []
  match notification.SlackOptions with
  | some more => opts ++ more
  | none => opts

/-- Go `func (s *Transport) Push(ctx, notification) error`; the error built when the
recipient has no Slack id is allocated at `addr` (the `errors.New` value) and
`addr + 1` (its `Permanent` wrapper). -/
def Transport.Push {σ : Type} (s : Transport σ) (ctx : Context)
    (notification : common.Notification) (w : σ) (addr : Nat) : PushResult σ :=
  match notification.Recipient.Get ID with
  | none =>
    { err := some (notifier.Permanent (addr + 1)
        (GoError.errorString addr "recipient does not have a Slack ID")),
      state := w, posts := [] }
  | some id =>
    let options := s.getMessageOptions notification
    match s.client.PostMessageContext ctx id options w with
    | (err, w') =>
      { err := err, state := w',
        posts := [{ ctx := ctx, channelID := id, options := options }] }

/-- Go `func (s *Transport) Key() common.TransportKey`. -/
def Transport.Key {σ : Type} (s : Transport σ) : common.TransportID := s.key

end slack

/-! ## Test fixtures (notifier/default_test.go) -/

namespace fixtures

/-- The preferences of the user `rufus` of `TestDefaultNotifier_Push`; a pair without a
recorded preference is not wanted. -/
def knownUserWants (event : common.EventType) (transport : common.TransportID) : Bool :=
  if event = "com.example.one" ∧ transport = "email" then true
  else if event = "com.example.one" ∧ transport = "slack" then true
  else if event = "com.example.two" ∧ transport = "email" then true
  else false

/-- The user `rufus` of `TestDefaultNotifier_Push`. -/
def knownUser : user.User :=
  { Identifiers :=
      identifier.NewCollection [identifier.New "username" (identifier.IdValue.str "rufus")],
    Wants := knownUserWants }

/-- An in-memory store holding `knownUser` only, found by its username. -/
def store : user.Store :=
  { Find := fun ids =>
      if ids.Get "username" = some "rufus" then Except.ok knownUser
      else Except.error user.ErrUserNotFound }

/-- The test double `fakeTransport`: it returns `returns` when set, and otherwise
appends the event type to the sent log (the world is the log of all fake transports,
each entry tagged with the transport key). -/
def fakeTransport (key : common.TransportID) (returns : Option GoError) :
    notifier.Transport (List (common.TransportID × common.EventType)) :=
  { ID := key,
    Push := fun _ notification sent =>
      match returns with
      | some e => (some e, sent)
      | none => (none, sent ++ [(key, notification.Typ)]) }

/-- A call-count probe: a transport that records every invocation of its `Push` in the
world, with its key and the context it was handed, and returns `returns`. -/
def probeTransport (key : common.TransportID) (returns : Option GoError) :
    notifier.Transport (List (common.TransportID × Context)) :=
  { ID := key,
    Push := fun ctx _ seen => (returns, seen ++ [(key, ctx)]) }

/-- The helper `notificationFor` of the tests, with the default message `hello world`. -/
def notificationFor (eventType : common.EventType) (identifiers : identifier.Collection) :
    common.Notification :=
  { Typ := eventType, Recipient := identifiers, Render := fun _ => "hello world",
    SlackOptions := none }

/-- The test error `errSomethingFailed`, a package-level value allocated once (at
address 2 in the model). -/
def errSomethingFailed : GoError := GoError.errorString 2 "some transport error occurred"

/-- A cancelled context. -/
def cancelledCtx : Context := { cancelled := true }

/-- A live context (`context.Background()`). -/
def background : Context := { cancelled := false }

/-- A Slack client whose post always returns the given result and leaves the world
unchanged. -/
def fakeClient (returns : Option GoError) : slack.Client Unit :=
  { PostMessageContext := fun _ _ _ w => (returns, w) }

end fixtures

/-! ## Lemmas on Go errors -/

namespace GoError

mutual
theorem beq_refl : ∀ e : GoError, beq e e = true
  | errorString a s => by simp [beq]
  | wrapError a m e => by simp [beq, beq_refl e]
  | permanentError a e => by simp [beq, beq_refl e]
  | joinError a es => by simp [beq, beqList_refl es]
  | valueError n c x => by simp [beq]
theorem beqList_refl : ∀ es : List GoError, beqList es es = true
  | [] => by simp [beqList]
  | e :: es => by simp [beqList, beq_refl e, beqList_refl es]
end

theorem equalsTarget_of_not_comparable (e target : GoError)
    (h : typeComparable target = false) : equalsTarget e target = false := by
  simp [equalsTarget, h]

mutual
theorem Is_of_not_comparable (target : GoError) (h : typeComparable target = false) :
    ∀ e : GoError, Is e target = false
  | errorString a s => by simp [Is, equalsTarget_of_not_comparable _ _ h]
  | wrapError a m e => by
    simp [Is, equalsTarget_of_not_comparable _ _ h, Is_of_not_comparable target h e]
  | permanentError a e => by
    simp [Is, equalsTarget_of_not_comparable _ _ h, Is_of_not_comparable target h e]
  | joinError a es => by
    simp [Is, equalsTarget_of_not_comparable _ _ h, IsAny_of_not_comparable target h es]
  | valueError n c x => by simp [Is, equalsTarget_of_not_comparable _ _ h]
theorem IsAny_of_not_comparable (target : GoError) (h : typeComparable target = false) :
    ∀ es : List GoError, IsAny es target = false
  | [] => by simp [IsAny]
  | e :: es => by
    simp [IsAny, Is_of_not_comparable target h e, IsAny_of_not_comparable target h es]
end

end GoError

/-! ## Lemmas on the fan-out loop -/

namespace notifier

theorem wantedTransports_cons_of_wants {σ : Type} (u : user.User)
    (eventType : common.EventType) (t : Transport σ) (ts : List (Transport σ))
    (h : u.Wants eventType t.ID = true) :
    wantedTransports u eventType (t :: ts) = t :: wantedTransports u eventType ts := by
  simp [wantedTransports, List.filter, h]

theorem wantedTransports_cons_of_not_wants {σ : Type} (u : user.User)
    (eventType : common.EventType) (t : Transport σ) (ts : List (Transport σ))
    (h : ¬ u.Wants eventType t.ID = true) :
    wantedTransports u eventType (t :: ts) = wantedTransports u eventType ts := by
  simp [wantedTransports, List.filter, h]

/-- The loop of `Push` against the reference semantics: it leaves the world that
invoking the wanted transports in order leaves, collects exactly their non-nil results,
and logs one call per wanted transport. -/
theorem pushLoop_spec {σ : Type} (u : user.User) (ctx : Context) (n : common.Notification) :
    ∀ (ts : List (Transport σ)) (i : Nat) (errs : List GoError) (s : σ) (calls : List Call),
      ∃ new : List Call,
        (pushLoop u ctx n ts i errs s calls).2.2 = calls ++ new ∧
        (pushLoop u ctx n ts i errs s calls).1 =
          errs ++ failures (invokeInOrder ctx n (wantedTransports u n.Typ ts) s).1 ∧
        (pushLoop u ctx n ts i errs s calls).2.1 =
          (invokeInOrder ctx n (wantedTransports u n.Typ ts) s).2 ∧
        new.map Call.result = (invokeInOrder ctx n (wantedTransports u n.Typ ts) s).1 ∧
        new.map (fun c => (c.index, c.id)) = eligible u n.Typ i ts ∧
        ∀ c ∈ new, c.ctx = ctx := by
  intro ts
  induction ts with
  | nil =>
    intro i errs s calls
    exact ⟨[], by simp [pushLoop], by simp [pushLoop, wantedTransports, invokeInOrder, failures],
      by simp [pushLoop, wantedTransports, invokeInOrder],
      by simp [wantedTransports, invokeInOrder], by simp [eligible], by simp⟩
  | cons t rest ih =>
    intro i errs s calls
    by_cases hw : u.Wants n.Typ t.ID = true
    · rw [wantedTransports_cons_of_wants u n.Typ t rest hw]
      rcases hp : t.Push ctx n s with ⟨r, s'⟩
      cases r with
      | none =>
        obtain ⟨new, h1, h2, h3, h4, h5, h6⟩ := ih (i + 1) errs s'
          (calls ++ [{ index := i, id := t.ID, ctx := ctx, result := none }])
        refine ⟨{ index := i, id := t.ID, ctx := ctx, result := none } :: new,
          ?_, ?_, ?_, ?_, ?_, ?_⟩
        · simp [pushLoop, hw, hp, h1]
        · simp [pushLoop, hw, hp, h2, invokeInOrder, failures]
        · simp [pushLoop, hw, hp, h3, invokeInOrder]
        · simp [invokeInOrder, hp, h4]
        · simp [eligible, List.enumFrom, hw] at h5 ⊢
          exact h5
        · intro c hc
          rcases List.mem_cons.mp hc with rfl | hc
          · rfl
          · exact h6 c hc
      | some e =>
        obtain ⟨new, h1, h2, h3, h4, h5, h6⟩ := ih (i + 1) (errs ++ [e]) s'
          (calls ++ [{ index := i, id := t.ID, ctx := ctx, result := some e }])
        refine ⟨{ index := i, id := t.ID, ctx := ctx, result := some e } :: new,
          ?_, ?_, ?_, ?_, ?_, ?_⟩
        · simp [pushLoop, hw, hp, h1]
        · simp [pushLoop, hw, hp, h2, invokeInOrder, failures]
        · simp [pushLoop, hw, hp, h3, invokeInOrder]
        · simp [invokeInOrder, hp, h4]
        · simp [eligible, List.enumFrom, hw] at h5 ⊢
          exact h5
        · intro c hc
          rcases List.mem_cons.mp hc with rfl | hc
          · rfl
          · exact h6 c hc
    · rw [wantedTransports_cons_of_not_wants u n.Typ t rest hw]
      obtain ⟨new, h1, h2, h3, h4, h5, h6⟩ := ih (i + 1) errs s calls
      refine ⟨new, ?_, ?_, ?_, h4, ?_, h6⟩
      · simp [pushLoop, hw, h1]
      · simp [pushLoop, hw, h2]
      · simp [pushLoop, hw, h3]
      · simp [eligible, List.enumFrom, hw] at h5 ⊢
        exact h5

/-- What `Push` does once the recipient is resolved, against the reference semantics:
the world and the results are those of invoking the wanted transports in order, the
returned error is the join of their non-nil results (nil when there is none), and the
log holds one call per wanted transport, each with the caller's context. -/
theorem push_resolved {σ : Type} (d : DefaultNotifier σ) (ctx : Context)
    (n : common.Notification) (s : σ) (addr : Nat) (u : user.User)
    (hfind : d.userStore.Find n.Recipient = Except.ok u) :
    (d.Push ctx n s addr).calls.map (fun c => (c.index, c.id)) =
      eligible u n.Typ 0 d.transports ∧
    (d.Push ctx n s addr).calls.map Call.result =
      (invokeInOrder ctx n (wantedTransports u n.Typ d.transports) s).1 ∧
    (d.Push ctx n s addr).state =
      (invokeInOrder ctx n (wantedTransports u n.Typ d.transports) s).2 ∧
    (d.Push ctx n s addr).err =
      errorsJoin addr (failures (invokeInOrder ctx n (wantedTransports u n.Typ d.transports) s).1) ∧
    ∀ c ∈ (d.Push ctx n s addr).calls, c.ctx = ctx := by
  obtain ⟨new, h1, h2, h3, h4, h5, h6⟩ := pushLoop_spec u ctx n d.transports 0 [] s []
  rcases hl : pushLoop u ctx n d.transports 0 [] s [] with ⟨errs, s', calls⟩
  rw [hl] at h1 h2 h3
  simp only [List.nil_append] at h1 h2 h3
  subst h1
  unfold DefaultNotifier.Push
  rw [hfind]
  simp only [hl]
  by_cases hlen : errs.length > 0
  · simp only [hlen, if_true]
    exact ⟨h5, h4, h3, by rw [h2], h6⟩
  · simp only [hlen, if_false]
    refine ⟨h5, h4, h3, ?_, h6⟩
    have : errs.length = 0 := by omega
    rw [← h2]
    simp [errorsJoin, this]

theorem failures_eq_nil_iff {results : List (Option GoError)} :
    failures results = [] ↔ ∀ r ∈ results, r = none := by
  simp [failures, List.filterMap_eq_nil_iff]

end notifier

/-! ## The default notifier: claims -/

namespace notifier

/-- C2: for a resolved recipient `u`, `DefaultNotifier.Push` invokes exactly the
registered transports `t` with `u.Wants(type, t.ID())`, each once and in registration
order, and no transport that is not wanted: the world after `Push` and the results
obtained are those of applying the `Push` of the wanted transports, one after the other,
with the caller's context and notification; the logged positions are strictly increasing
and a position is logged exactly when its transport is wanted. This holds for arbitrary
transports, whatever they return. -/
theorem push_invokes_exactly_wanted {σ : Type} (d : DefaultNotifier σ) (ctx : Context)
    (n : common.Notification) (s : σ) (addr : Nat) (u : user.User)
    (hfind : d.userStore.Find n.Recipient = Except.ok u) :
    (d.Push ctx n s addr).state =
      (invokeInOrder ctx n (d.transports.filter (fun t => u.Wants n.Typ t.ID)) s).2 ∧
    (d.Push ctx n s addr).calls.map Call.result =
      (invokeInOrder ctx n (d.transports.filter (fun t => u.Wants n.Typ t.ID)) s).1 ∧
    (d.Push ctx n s addr).calls.map (fun c => (c.index, c.id)) =
      (d.transports.enum.filter (fun p => u.Wants n.Typ p.2.ID)).map
        (fun p => (p.1, p.2.ID)) ∧
    ((d.Push ctx n s addr).calls.map Call.index).Pairwise (fun i j => i < j) ∧
    ∀ (i : Nat) (t : Transport σ), d.transports[i]? = some t →
      (i ∈ (d.Push ctx n s addr).calls.map Call.index ↔ u.Wants n.Typ t.ID = true) := by
  obtain ⟨h, hres, hstate, -, -⟩ := push_resolved d ctx n s addr u hfind
  have hidx : (d.Push ctx n s addr).calls.map Call.index =
      (d.transports.enum.filter (fun p => u.Wants n.Typ p.2.ID)).map Prod.fst := by
    have := congrArg (List.map Prod.fst) h
    simpa [eligible, List.enum, List.map_map, Function.comp_def] using this
  refine ⟨hstate, hres, h, ?_, ?_⟩
  · rw [hidx]
    have hsub : ((d.transports.enum.filter (fun p => u.Wants n.Typ p.2.ID)).map Prod.fst).Sublist
        (d.transports.enum.map Prod.fst) := (List.filter_sublist _).map Prod.fst
    rw [List.enum_map_fst] at hsub
    exact (List.pairwise_lt_range _).sublist hsub
  · intro i t ht
    rw [hidx]
    constructor
    · intro hi
      obtain ⟨p, hp, hpi⟩ := List.mem_map.mp hi
      obtain ⟨hmem, hw⟩ := List.mem_filter.mp hp
      have := List.mem_enum_iff_getElem?.mp hmem
      rw [hpi, ht] at this
      cases this
      exact hw
    · intro hw
      refine List.mem_map.mpr ⟨(i, t), List.mem_filter.mpr ⟨?_, hw⟩, rfl⟩
      exact List.mem_enum_iff_getElem?.mpr ht

/-- Witness for C2: the recipient of the tests with probes `email` (failing), `sms` and
`slack`, for an event wanted by `email` and `slack` only: the probes `email` and `slack`
have each seen one call, in that order, although the first one fails, and `sms` none;
the log holds positions 0 and 2. -/
theorem push_invokes_exactly_wanted_witness :
    fixtures.store.Find (fixtures.notificationFor "com.example.one"
        fixtures.knownUser.Identifiers).Recipient = Except.ok fixtures.knownUser ∧
    ((New fixtures.store [fixtures.probeTransport "email" (some fixtures.errSomethingFailed),
        fixtures.probeTransport "sms" none,
        fixtures.probeTransport "slack" none]).Push fixtures.background
        (fixtures.notificationFor "com.example.one" fixtures.knownUser.Identifiers) [] 100).state
      = [("email", fixtures.background), ("slack", fixtures.background)] ∧
    ((New fixtures.store [fixtures.probeTransport "email" (some fixtures.errSomethingFailed),
        fixtures.probeTransport "sms" none,
        fixtures.probeTransport "slack" none]).Push fixtures.background
        (fixtures.notificationFor "com.example.one" fixtures.knownUser.Identifiers) [] 100).calls.map
        (fun c => (c.index, c.id)) = [(0, "email"), (2, "slack")] :=
  ⟨rfl,
   (push_invokes_exactly_wanted
      (New fixtures.store [fixtures.probeTransport "email" (some fixtures.errSomethingFailed),
        fixtures.probeTransport "sms" none,
        fixtures.probeTransport "slack" none]) fixtures.background
      (fixtures.notificationFor "com.example.one" fixtures.knownUser.Identifiers) [] 100
      fixtures.knownUser rfl).1.trans (by decide),
   (push_invokes_exactly_wanted
      (New fixtures.store [fixtures.probeTransport "email" (some fixtures.errSomethingFailed),
        fixtures.probeTransport "sms" none,
        fixtures.probeTransport "slack" none]) fixtures.background
      (fixtures.notificationFor "com.example.one" fixtures.knownUser.Identifiers) [] 100
      fixtures.knownUser rfl).2.2.1.trans (by decide)⟩

/-- C4: for a resolved recipient, `Push` returns nil exactly when no invoked transport
returned a non-nil error, where the invoked transports are the wanted ones, applied one
after the other; in particular it returns nil, invokes nothing and leaves the world
untouched when every registered transport is skipped by preference, it returns nil when
no transport is registered, and it never returns an aggregate without members. -/
theorem push_nil_iff_no_transport_error {σ : Type} (d : DefaultNotifier σ)
    (ctx : Context) (n : common.Notification) (s : σ) (addr : Nat) (u : user.User)
    (hfind : d.userStore.Find n.Recipient = Except.ok u) :
    ((d.Push ctx n s addr).err = none ↔
      ∀ r ∈ (invokeInOrder ctx n (d.transports.filter (fun t => u.Wants n.Typ t.ID)) s).1,
        r = none) ∧
    ((d.Push ctx n s addr).err = none ↔ ∀ c ∈ (d.Push ctx n s addr).calls, c.result = none) ∧
    ((∀ t ∈ d.transports, u.Wants n.Typ t.ID = false) →
      (d.Push ctx n s addr).err = none ∧ (d.Push ctx n s addr).calls = [] ∧
      (d.Push ctx n s addr).state = s) ∧
    (d.transports = [] → (d.Push ctx n s addr).err = none) ∧
    ∀ a : Nat, (d.Push ctx n s addr).err ≠ some (GoError.joinError a []) := by
  obtain ⟨hcalls, hres, hstate, herr, -⟩ := push_resolved d ctx n s addr u hfind
  have hiff : (d.Push ctx n s addr).err = none ↔
      ∀ r ∈ (invokeInOrder ctx n (wantedTransports u n.Typ d.transports) s).1, r = none := by
    rw [herr, ← failures_eq_nil_iff]
    unfold errorsJoin
    constructor
    · intro h
      by_cases hlen : (failures
          (invokeInOrder ctx n (wantedTransports u n.Typ d.transports) s).1).length = 0
      · exact List.length_eq_zero.mp hlen
      · simp [hlen] at h
    · intro h
      simp [h]
  have hiff2 : (d.Push ctx n s addr).err = none ↔
      ∀ c ∈ (d.Push ctx n s addr).calls, c.result = none := by
    rw [hiff, ← hres]
    constructor
    · intro h c hc
      exact h c.result (List.mem_map_of_mem Call.result hc)
    · intro h r hr
      obtain ⟨c, hc, rfl⟩ := List.mem_map.mp hr
      exact h c hc
  have hskip : (∀ t ∈ d.transports, u.Wants n.Typ t.ID = false) →
      wantedTransports u n.Typ d.transports = [] := by
    intro hall
    unfold wantedTransports
    rw [List.filter_eq_nil_iff]
    intro t ht
    simp [hall t ht]
  have hnone : wantedTransports u n.Typ d.transports = [] →
      (d.Push ctx n s addr).err = none ∧ (d.Push ctx n s addr).calls = [] ∧
      (d.Push ctx n s addr).state = s := by
    intro hw
    rw [hw] at hres hstate
    refine ⟨?_, ?_, hstate⟩
    · rw [hiff, hw]
      intro r hr
      cases hr
    · exact List.map_eq_nil_iff.mp hres
  refine ⟨hiff, hiff2, fun hall => hnone (hskip hall), ?_, ?_⟩
  · intro hnil
    exact (hnone (by rw [hnil]; rfl)).1
  · intro a
    rw [herr]
    unfold errorsJoin
    split
    · simp
    · rename_i hlen
      intro h
      injection h with h
      injection h with _ h
      rw [h] at hlen
      exact hlen rfl

/-- Witness for C4: the test case `user wants none` (nil, the probe has seen nothing),
a wanted probe that succeeds (nil) and a wanted probe that fails (not nil). -/
theorem push_nil_iff_no_transport_error_witness :
    fixtures.store.Find (fixtures.notificationFor "com.example.three"
        fixtures.knownUser.Identifiers).Recipient = Except.ok fixtures.knownUser ∧
    ((New fixtures.store [fixtures.probeTransport "slack"
        (some fixtures.errSomethingFailed)]).Push fixtures.background
        (fixtures.notificationFor "com.example.three" fixtures.knownUser.Identifiers) [] 100).err
      = none ∧
    ((New fixtures.store [fixtures.probeTransport "slack"
        (some fixtures.errSomethingFailed)]).Push fixtures.background
        (fixtures.notificationFor "com.example.three" fixtures.knownUser.Identifiers) [] 100).state
      = [] ∧
    ((New fixtures.store [fixtures.probeTransport "email" none]).Push fixtures.background
        (fixtures.notificationFor "com.example.one" fixtures.knownUser.Identifiers) [] 100).err
      = none ∧
    ((New fixtures.store [fixtures.probeTransport "email" none,
        fixtures.probeTransport "slack" (some fixtures.errSomethingFailed)]).Push
        fixtures.background
        (fixtures.notificationFor "com.example.one" fixtures.knownUser.Identifiers) [] 100).err
      ≠ none :=
  ⟨rfl,
   ((push_nil_iff_no_transport_error
      (New fixtures.store [fixtures.probeTransport "slack" (some fixtures.errSomethingFailed)])
      fixtures.background
      (fixtures.notificationFor "com.example.three" fixtures.knownUser.Identifiers) [] 100
      fixtures.knownUser rfl).2.2.1 (fun t ht => by
        rcases List.mem_singleton.mp ht with rfl
        rfl)).1,
   ((push_nil_iff_no_transport_error
      (New fixtures.store [fixtures.probeTransport "slack" (some fixtures.errSomethingFailed)])
      fixtures.background
      (fixtures.notificationFor "com.example.three" fixtures.knownUser.Identifiers) [] 100
      fixtures.knownUser rfl).2.2.1 (fun t ht => by
        rcases List.mem_singleton.mp ht with rfl
        rfl)).2.2,
   (push_nil_iff_no_transport_error
      (New fixtures.store [fixtures.probeTransport "email" none])
      fixtures.background
      (fixtures.notificationFor "com.example.one" fixtures.knownUser.Identifiers) [] 100
      fixtures.knownUser rfl).1.mpr (fun r hr => by
        rcases List.mem_singleton.mp hr with rfl
        rfl),
   fun h => Option.noConfusion
     ((push_nil_iff_no_transport_error
        (New fixtures.store [fixtures.probeTransport "email" none,
          fixtures.probeTransport "slack" (some fixtures.errSomethingFailed)])
        fixtures.background
        (fixtures.notificationFor "com.example.one" fixtures.knownUser.Identifiers) [] 100
        fixtures.knownUser rfl).1.mp h (some fixtures.errSomethingFailed)
        (List.mem_cons_of_mem _ (List.mem_cons_self _ _)))⟩

/-- C10, as stated, fails on the code: with a context that is already cancelled at the
call, a resolvable recipient and two wanted transports, `Push` still invokes both
transports (positions 0 and 1), and both fake transports record the event as sent. -/
theorem push_cancelled_context_still_invokes :
    fixtures.cancelledCtx.cancelled = true ∧
    fixtures.store.Find (fixtures.notificationFor "com.example.one"
        fixtures.knownUser.Identifiers).Recipient = Except.ok fixtures.knownUser ∧
    ((New fixtures.store [fixtures.fakeTransport "email" none,
        fixtures.fakeTransport "slack" none]).Push fixtures.cancelledCtx
        (fixtures.notificationFor "com.example.one" fixtures.knownUser.Identifiers) [] 100).calls.map
        Call.index = [0, 1] ∧
    ((New fixtures.store [fixtures.fakeTransport "email" none,
        fixtures.fakeTransport "slack" none]).Push fixtures.cancelledCtx
        (fixtures.notificationFor "com.example.one" fixtures.knownUser.Identifiers) [] 100).state
      = [("email", "com.example.one"), ("slack", "com.example.one")] :=
  ⟨rfl, rfl, by decide, by decide⟩

/-- C10, amended: `Push` never consults the context. For a resolved recipient and any
context, cancelled or not, every registered transport the recipient wants is invoked
with the caller's context unchanged: the world after `Push` and the results obtained are
those of applying the `Push` of the wanted transports to that very context, one after
the other, and every wanted position is logged with that context. Reacting to
cancellation is left to the transports. -/
theorem push_hands_context_to_every_wanted_transport {σ : Type} (d : DefaultNotifier σ)
    (ctx : Context) (n : common.Notification) (s : σ) (addr : Nat) (u : user.User)
    (hfind : d.userStore.Find n.Recipient = Except.ok u) :
    (d.Push ctx n s addr).state =
      (invokeInOrder ctx n (d.transports.filter (fun t => u.Wants n.Typ t.ID)) s).2 ∧
    (d.Push ctx n s addr).calls.map Call.result =
      (invokeInOrder ctx n (d.transports.filter (fun t => u.Wants n.Typ t.ID)) s).1 ∧
    (∀ (i : Nat) (t : Transport σ), d.transports[i]? = some t →
      u.Wants n.Typ t.ID = true →
      ∃ c ∈ (d.Push ctx n s addr).calls, c.index = i ∧ c.id = t.ID ∧ c.ctx = ctx) ∧
    ∀ c ∈ (d.Push ctx n s addr).calls, c.ctx = ctx := by
  obtain ⟨hcalls, hres, hstate, -, hctx⟩ := push_resolved d ctx n s addr u hfind
  refine ⟨hstate, hres, ?_, hctx⟩
  intro i t ht hw
  have hmem : (i, t.ID) ∈ eligible u n.Typ 0 d.transports := by
    unfold eligible
    refine List.mem_map.mpr ⟨(i, t), List.mem_filter.mpr ⟨?_, hw⟩, rfl⟩
    exact List.mem_enum_iff_getElem?.mpr ht
  rw [← hcalls] at hmem
  obtain ⟨c, hc, hceq⟩ := List.mem_map.mp hmem
  refine ⟨c, hc, ?_, ?_, hctx c hc⟩
  · exact congrArg Prod.fst hceq
  · exact congrArg Prod.snd hceq

/-- Witness for the amended C10: with a cancelled context, the two wanted probes have
each seen one call, and the context they were handed is the cancelled one. -/
theorem push_hands_context_to_every_wanted_transport_witness :
    fixtures.cancelledCtx.cancelled = true ∧
    fixtures.store.Find (fixtures.notificationFor "com.example.one"
        fixtures.knownUser.Identifiers).Recipient = Except.ok fixtures.knownUser ∧
    ((New fixtures.store [fixtures.probeTransport "email" none,
        fixtures.probeTransport "slack" none]).Push fixtures.cancelledCtx
        (fixtures.notificationFor "com.example.one" fixtures.knownUser.Identifiers) [] 100).state
      = [("email", fixtures.cancelledCtx), ("slack", fixtures.cancelledCtx)] :=
  ⟨rfl, rfl,
   (push_hands_context_to_every_wanted_transport
      (New fixtures.store [fixtures.probeTransport "email" none,
        fixtures.probeTransport "slack" none]) fixtures.cancelledCtx
      (fixtures.notificationFor "com.example.one" fixtures.knownUser.Identifiers) [] 100
      fixtures.knownUser rfl).1.trans (by decide)⟩

end notifier

/-! ## The Slack transport: claims -/

namespace slack

/-- C5: the Slack transport looks the recipient up under the key `slack.com/id`. When
the recipient has no such entry, `Transport.Push` returns a non-nil error classified as
Permanent, does not call the client and leaves the world untouched; when the entry is
present, it posts once to that id and returns exactly what the client returned. -/
theorem push_without_slack_id_is_permanent {σ : Type} (t : Transport σ) (ctx : Context)
    (n : common.Notification) (w : σ) (addr : Nat) :
    ID = "slack.com/id" ∧
    (n.Recipient.Get ID = none →
      (∃ e, (t.Push ctx n w addr).err = some e ∧ GoError.IsPermanent e = true) ∧
      (t.Push ctx n w addr).posts = [] ∧ (t.Push ctx n w addr).state = w) ∧
    (∀ id : String, n.Recipient.Get ID = some id →
      (t.Push ctx n w addr).err =
        (t.client.PostMessageContext ctx id (t.getMessageOptions n) w).1 ∧
      (t.Push ctx n w addr).state =
        (t.client.PostMessageContext ctx id (t.getMessageOptions n) w).2 ∧
      (t.Push ctx n w addr).posts =
        [{ ctx := ctx, channelID := id, options := t.getMessageOptions n }]) := by
  refine ⟨by decide, ?_, ?_⟩
  · intro h
    unfold Transport.Push
    rw [h]
    exact ⟨⟨_, rfl, rfl⟩, rfl, rfl⟩
  · intro id h
    unfold Transport.Push
    rw [h]
    exact ⟨rfl, rfl, rfl⟩

/-- Witness for C5: a recipient known by e-mail only, and a recipient with a Slack id
whose post fails with a plain (not Permanent) error. -/
theorem push_without_slack_id_is_permanent_witness :
    (fixtures.notificationFor "com.example.one" (identifier.NewCollection
        [identifier.New "email" (identifier.IdValue.str "rufus@seatgeek.com")])).Recipient.Get ID
      = none ∧
    ((Transport.mk "slack" (fixtures.fakeClient none)).Push fixtures.background
        (fixtures.notificationFor "com.example.one" (identifier.NewCollection
          [identifier.New "email" (identifier.IdValue.str "rufus@seatgeek.com")])) () 100).posts
      = [] ∧
    (fixtures.notificationFor "com.example.one" (identifier.NewCollection
        [identifier.New "slack.com/id" (identifier.IdValue.str "U1234567")])).Recipient.Get ID
      = some "U1234567" ∧
    ((Transport.mk "slack" (fixtures.fakeClient (some fixtures.errSomethingFailed))).Push
        fixtures.background
        (fixtures.notificationFor "com.example.one" (identifier.NewCollection
          [identifier.New "slack.com/id" (identifier.IdValue.str "U1234567")])) () 100).err
      = some fixtures.errSomethingFailed :=
  ⟨by decide,
   ((push_without_slack_id_is_permanent (Transport.mk "slack" (fixtures.fakeClient none))
      fixtures.background
      (fixtures.notificationFor "com.example.one" (identifier.NewCollection
        [identifier.New "email" (identifier.IdValue.str "rufus@seatgeek.com")])) () 100).2.1
      (by decide)).2.1,
   by decide,
   ((push_without_slack_id_is_permanent
      (Transport.mk "slack" (fixtures.fakeClient (some fixtures.errSomethingFailed)))
      fixtures.background
      (fixtures.notificationFor "com.example.one" (identifier.NewCollection
        [identifier.New "slack.com/id" (identifier.IdValue.str "U1234567")])) () 100).2.2
      "U1234567" (by decide)).1⟩

end slack

/-! ## The identifier model: lemmas -/

namespace identifier

theorem cutFirst_eq_none {sep : Char} {l : List Char} (h : sep ∉ l) :
    cutFirst sep l = none := by
  induction l with
  | nil => rfl
  | cons c cs ih =>
    have hc : c ≠ sep := fun h' => h (h' ▸ List.mem_cons_self _ _)
    have hcs : sep ∉ cs := fun h' => h (List.mem_cons_of_mem _ h')
    simp [cutFirst, hc, ih hcs]

theorem cutFirst_append {sep : Char} {l : List Char} (r : List Char) (h : sep ∉ l) :
    cutFirst sep (l ++ sep :: r) = some (l, r) := by
  induction l with
  | nil => simp [cutFirst]
  | cons c cs ih =>
    have hc : c ≠ sep := fun h' => h (h' ▸ List.mem_cons_self _ _)
    have hcs : sep ∉ cs := fun h' => h (List.mem_cons_of_mem _ h')
    simp [cutFirst, hc, ih hcs]

theorem split_of_no_separator (v : String) (h : separator ∉ v.data) :
    NamespaceAndKind.Split v = ("", v) := by
  simp [NamespaceAndKind.Split, cutFirst_eq_none h]

theorem split_at_first_separator (a b : String) (h : separator ∉ a.data) :
    NamespaceAndKind.Split (a ++ String.singleton separator ++ b) = (a, b) := by
  have hd : (a ++ String.singleton separator ++ b).data = a.data ++ separator :: b.data := by
    simp [String.data_append, String.singleton]
  unfold NamespaceAndKind.Split
  rw [hd, cutFirst_append _ h]

/-- Lookup in a list of pairs: the value of the first pair stored under `k`. -/
theorem find_setEntry (k : NamespaceAndKind) (v : String) (k' : NamespaceAndKind) :
    ∀ l : List (NamespaceAndKind × String),
      ((setEntry k v l).find? (fun kv => kv.1 = k')).map Prod.snd =
        if k = k' then some v else (l.find? (fun kv => kv.1 = k')).map Prod.snd := by
  intro l
  induction l with
  | nil =>
    by_cases h : k = k' <;> simp [setEntry, List.find?, h]
  | cons x rest ih =>
    obtain ⟨k0, v0⟩ := x
    by_cases h0 : k0 = k
    · subst h0
      by_cases h : k0 = k' <;> simp [setEntry, List.find?, h]
    · by_cases h1 : k0 = k'
      · subst h1
        have : ¬ k = k0 := fun e => h0 e.symm
        simp [setEntry, List.find?, h0, this]
      · simp [setEntry, List.find?, h0, h1, ih]

theorem get_set (c : Collection) (k : NamespaceAndKind) (v : String) (k' : NamespaceAndKind) :
    (c.set k v).Get k' = if k = k' then some v else c.Get k' := by
  unfold Collection.set Collection.Get
  exact find_setEntry k v k' c.pairs

theorem keys_setEntry (k : NamespaceAndKind) (v : String) :
    ∀ l : List (NamespaceAndKind × String),
      (setEntry k v l).map Prod.fst =
        if k ∈ l.map Prod.fst then l.map Prod.fst else l.map Prod.fst ++ [k] := by
  intro l
  induction l with
  | nil => simp [setEntry]
  | cons x rest ih =>
    obtain ⟨k0, v0⟩ := x
    by_cases h0 : k0 = k
    · subst h0
      simp [setEntry]
    · have h0' : ¬ k = k0 := fun e => h0 e.symm
      by_cases hm : k ∈ rest.map Prod.fst
      · simp only [setEntry, h0, if_false, List.map_cons, ih, hm, if_true, List.mem_cons, or_true]
      · simp only [setEntry, h0, if_false, List.map_cons, ih, hm, List.mem_cons, h0', or_false,
          List.cons_append]

theorem setEntry_of_not_mem (k : NamespaceAndKind) (v : String) :
    ∀ l : List (NamespaceAndKind × String), k ∉ l.map Prod.fst →
      setEntry k v l = l ++ [(k, v)] := by
  intro l
  induction l with
  | nil => intro _; rfl
  | cons x rest ih =>
    obtain ⟨k0, v0⟩ := x
    intro h
    have h0 : ¬ k0 = k := fun e => h (by simp [e])
    have hr : k ∉ rest.map Prod.fst := fun e =>
      h (by simp [List.map_cons]; exact Or.inr (by simpa using e))
    simp [setEntry, h0, ih hr]

theorem nodup_keys_setEntry (k : NamespaceAndKind) (v : String)
    (l : List (NamespaceAndKind × String)) (h : (l.map Prod.fst).Nodup) :
    ((setEntry k v l).map Prod.fst).Nodup := by
  rw [keys_setEntry]
  by_cases hm : k ∈ l.map Prod.fst
  · simpa [hm] using h
  · simp only [hm, if_false]
    rw [List.nodup_append]
    refine ⟨h, List.nodup_singleton k, ?_⟩
    intro a ha hb
    rw [List.mem_singleton] at hb
    exact hm (hb ▸ ha)

theorem wf_set (c : Collection) (k : NamespaceAndKind) (v : String) (h : c.WF) :
    (c.set k v).WF :=
  nodup_keys_setEntry k v c.pairs h

theorem wf_foldl_set (l : List (NamespaceAndKind × String)) :
    ∀ c : Collection, c.WF → (l.foldl (fun acc kv => acc.set kv.1 kv.2) c).WF := by
  induction l with
  | nil => intro c h; exact h
  | cons x rest ih => intro c h; exact ih _ (wf_set c x.1 x.2 h)

/-- Folding the writes of a duplicate-free list of pairs into a collection: a key of the
list reads the value from the list, any other key reads what the collection held. -/
theorem get_foldl_set (k : NamespaceAndKind) :
    ∀ (l : List (NamespaceAndKind × String)), (l.map Prod.fst).Nodup → ∀ c : Collection,
      (l.foldl (fun acc kv => acc.set kv.1 kv.2) c).Get k =
        match (l.find? (fun kv => kv.1 = k)).map Prod.snd with
        | some v => some v
        | none => c.Get k := by
  intro l
  induction l with
  | nil => intro _ c; rfl
  | cons x rest ih =>
    obtain ⟨k0, v0⟩ := x
    intro hnd c
    rw [List.map_cons, List.nodup_cons] at hnd
    obtain ⟨hnot, hrest⟩ := hnd
    rw [List.foldl_cons, ih hrest, get_set]
    by_cases h0 : k0 = k
    · subst h0
      have hnone : rest.find? (fun kv => kv.1 = k0) = none := by
        rw [List.find?_eq_none]
        intro kv hkv hk
        apply hnot
        have hk' : kv.1 = k0 := by simpa using hk
        exact List.mem_map.mpr ⟨kv, hkv, hk'⟩
      simp [hnone, List.find?]
    · simp [List.find?, h0]

theorem foldl_set_fresh :
    ∀ (l acc : List (NamespaceAndKind × String)), ((acc ++ l).map Prod.fst).Nodup →
      l.foldl (fun c kv => c.set kv.1 kv.2) (Collection.entries acc) =
        Collection.entries (acc ++ l) := by
  intro l
  induction l with
  | nil => intro acc _; simp
  | cons x rest ih =>
    intro acc h
    have h' : ((acc ++ [x] ++ rest).map Prod.fst).Nodup := by simpa using h
    have hx : x.1 ∉ acc.map Prod.fst := by
      have h2 : (acc.map Prod.fst ++ x.1 :: rest.map Prod.fst).Nodup := by simpa using h
      have := (List.nodup_append.mp h2).2.2
      intro hmem
      exact this hmem (List.mem_cons_self _ _)
    rw [List.foldl_cons]
    have hs : (Collection.entries acc).set x.1 x.2 = Collection.entries (acc ++ [x]) := by
      unfold Collection.set
      simp only [Collection.pairs]
      rw [setEntry_of_not_mem _ _ _ hx]
    rw [hs, ih _ h']
    simp

theorem pairs_foldl_set_of_empty (c : Collection) (hc : c.pairs = [])
    (l : List (NamespaceAndKind × String)) (hl : (l.map Prod.fst).Nodup) :
    (l.foldl (fun acc kv => acc.set kv.1 kv.2) c).pairs = l := by
  cases l with
  | nil => simpa using hc
  | cons x rest =>
    have hs : c.set x.1 x.2 = Collection.entries [x] := by
      unfold Collection.set
      rw [hc]
      rfl
    rw [List.foldl_cons, hs, foldl_set_fresh rest [x] (by simpa using hl)]
    rfl

theorem mem_iff_find_of_nodup :
    ∀ (l : List (NamespaceAndKind × String)), (l.map Prod.fst).Nodup →
      ∀ (k : NamespaceAndKind) (v : String),
        ((k, v) ∈ l ↔ (l.find? (fun kv => kv.1 = k)).map Prod.snd = some v) := by
  intro l
  induction l with
  | nil => intro _ k v; simp
  | cons x rest ih =>
    obtain ⟨k0, v0⟩ := x
    intro hnd k v
    rw [List.map_cons, List.nodup_cons] at hnd
    obtain ⟨hnot, hrest⟩ := hnd
    by_cases h0 : k0 = k
    · subst h0
      have hnm : (k0, v) ∉ rest := fun hm => hnot (List.mem_map.mpr ⟨(k0, v), hm, rfl⟩)
      simp only [List.mem_cons, Prod.mk.injEq, true_and, hnm, or_false, List.find?,
        decide_True, Option.map_some', Option.some.injEq]
      exact eq_comm
    · have h0' : ¬ k = k0 := fun e => h0 e.symm
      simp only [List.mem_cons, Prod.mk.injEq, h0', false_and, false_or, List.find?, h0,
        decide_False]
      exact ih hrest k v

/-- The pair stored for an identifier. -/
theorem foldl_ids_eq_foldl_pairs (xs : List Identifier) (c : Collection) :
    xs.foldl (fun c id => c.set id.NamespaceAndKind id.Value) c =
      (xs.map (fun id => (id.NamespaceAndKind, id.Value))).foldl
        (fun acc kv => acc.set kv.1 kv.2) c := by
  rw [List.foldl_map]

theorem get_foldl_ids (k : NamespaceAndKind) :
    ∀ (xs : List Identifier) (c : Collection),
      (xs.foldl (fun c id => c.set id.NamespaceAndKind id.Value) c).Get k =
        match (xs.reverse.find? (fun x => x.NamespaceAndKind = k)).map Identifier.Value with
        | some v => some v
        | none => c.Get k := by
  intro xs
  induction xs with
  | nil => intro c; rfl
  | cons x rest ih =>
    intro c
    rw [List.foldl_cons, ih, get_set, List.reverse_cons, List.find?_append]
    cases hr : rest.reverse.find? (fun x => x.NamespaceAndKind = k) with
    | some y => simp
    | none =>
      by_cases hx : x.NamespaceAndKind = k
      · simp [List.find?, hx]
      · simp [List.find?, hx]

theorem wf_newCollection (xs : List Identifier) : (NewCollection xs).WF := by
  unfold NewCollection
  rw [foldl_ids_eq_foldl_pairs]
  exact wf_foldl_set _ _ List.nodup_nil

theorem toList_map_key (c : Collection) :
    c.ToList.map Identifier.NamespaceAndKind = c.pairs.map Prod.fst := by
  simp [Collection.ToList, List.map_map, Function.comp_def]

theorem mem_toList_iff (c : Collection) (h : c.WF) (id : Identifier) :
    id ∈ c.ToList ↔ c.Get id.NamespaceAndKind = some id.Value := by
  unfold Collection.Get
  rw [← mem_iff_find_of_nodup c.pairs h]
  unfold Collection.ToList
  constructor
  · intro hm
    obtain ⟨kv, hkv, rfl⟩ := List.mem_map.mp hm
    exact hkv
  · intro hm
    exact List.mem_map.mpr ⟨(id.NamespaceAndKind, id.Value), hm, rfl⟩

theorem newCollection_of_nodup (xs : List Identifier)
    (h : (xs.map Identifier.NamespaceAndKind).Nodup) :
    (NewCollection xs).ToList = xs := by
  unfold NewCollection
  rw [foldl_ids_eq_foldl_pairs, foldl_set_fresh _ []
    (by simpa [List.map_map, Function.comp_def] using h)]
  simp [Collection.ToList, Collection.pairs, List.map_map, Function.comp_def]

end identifier

/-! ## The identifier model: claims -/

namespace identifier

/-- C6: after `a.Add(b)` the receiver maps every key of `b` to the value from `b` and
every key not in `b` to what `a` held (so it has no key outside `a` and `b`), and it is
again a well-formed map; adding a nil or empty collection leaves the receiver as it
was, and adding `b` to a nil or empty receiver yields the entries of `b`. -/
theorem add_overwrites_and_keeps (a b : Collection) (ha : a.WF) (hb : b.WF) :
    (∀ (k : NamespaceAndKind) (v : String), b.Get k = some v → (a.Add b).Get k = some v) ∧
    (∀ k : NamespaceAndKind, b.Get k = none → (a.Add b).Get k = a.Get k) ∧
    (a.Add b).WF ∧
    a.Add Collection.nil = a ∧
    a.Add (Collection.entries []) = a ∧
    (Collection.nil.Add b).pairs = b.pairs ∧
    ((Collection.entries []).Add b).pairs = b.pairs ∧
    (∀ k : NamespaceAndKind, (Collection.nil.Add b).Get k = b.Get k) := by
  have hget := fun k => get_foldl_set k b.pairs hb a
  have hnil : (Collection.nil.Add b).pairs = b.pairs :=
    pairs_foldl_set_of_empty Collection.nil rfl b.pairs hb
  refine ⟨?_, ?_, wf_foldl_set _ _ ha, rfl, rfl, hnil,
    pairs_foldl_set_of_empty (Collection.entries []) rfl b.pairs hb, ?_⟩
  · intro k v hk
    have := hget k
    unfold Collection.Get at hk
    unfold Collection.Add
    rw [this, hk]
  · intro k hk
    have := hget k
    unfold Collection.Get at hk
    unfold Collection.Add
    rw [this, hk]
  · intro k
    unfold Collection.Get
    rw [hnil]

/-- Witness for C6: the test case `adds and overwrites`. -/
theorem add_overwrites_and_keeps_witness :
    (NewCollection [New "username" (IdValue.str "rufus"),
      New "email" (IdValue.str "rufus@seatgeek.com")]).WF ∧
    (NewCollection [New "id" (IdValue.str "123"),
      New "email" (IdValue.str "rufus@example.com")]).WF ∧
    ((NewCollection [New "username" (IdValue.str "rufus"),
      New "email" (IdValue.str "rufus@seatgeek.com")]).Add
      (NewCollection [New "id" (IdValue.str "123"),
        New "email" (IdValue.str "rufus@example.com")])).Get "email"
      = some "rufus@example.com" :=
  ⟨by decide, by decide,
   (add_overwrites_and_keeps
      (NewCollection [New "username" (IdValue.str "rufus"),
        New "email" (IdValue.str "rufus@seatgeek.com")])
      (NewCollection [New "id" (IdValue.str "123"),
        New "email" (IdValue.str "rufus@example.com")])
      (by decide) (by decide)).1 "email" "rufus@example.com" (by decide)⟩

/-- C7, as stated, fails for a namespace that itself contains the separator: the kind
`c` is non-empty and separator-free, yet splitting the key built from namespace `a/b`
gives `(a, b/c)` and not `(a/b, c)`. -/
theorem split_new_namespace_with_separator :
    ("c" : String) ≠ "" ∧ separator ∉ ("c" : String).data ∧
    NamespaceAndKind.Split (NewNamespaceAndKind "a/b" "c") = ("a", "b/c") ∧
    NamespaceAndKind.Split (NewNamespaceAndKind "a/b" "c") ≠ ("a/b", "c") := by
  decide

/-- C7, amended: for every namespace (possibly empty) that does not contain the
separator and every non-empty kind that does not contain it,
`NewNamespaceAndKind(namespace, kind).Split()` is `(namespace, kind)`, and
`Namespace()` and `Kind()` are its two components. `NewNamespaceAndKind` yields the bare
kind for the empty namespace and `namespace/kind` otherwise; `Split` cuts at the first
separator, and a value without separator splits to `("", value)`. -/
theorem split_new_roundtrip (ns kind : String) (hns : separator ∉ ns.data)
    (_hne : kind ≠ "") (hk : separator ∉ kind.data) :
    NamespaceAndKind.Split (NewNamespaceAndKind ns kind) = (ns, kind) ∧
    NamespaceAndKind.Namespace (NewNamespaceAndKind ns kind) = ns ∧
    NamespaceAndKind.Kind (NewNamespaceAndKind ns kind) = kind ∧
    (ns = "" → NewNamespaceAndKind ns kind = kind) ∧
    (ns ≠ "" → NewNamespaceAndKind ns kind = ns ++ "/" ++ kind) ∧
    (∀ v : String, separator ∉ v.data → NamespaceAndKind.Split v = ("", v)) ∧
    (∀ a b : String, separator ∉ a.data →
      NamespaceAndKind.Split (a ++ "/" ++ b) = (a, b)) ∧
    (∀ v : NamespaceAndKind, NamespaceAndKind.Namespace v = (NamespaceAndKind.Split v).1 ∧
      NamespaceAndKind.Kind v = (NamespaceAndKind.Split v).2) := by
  have hsplit : NamespaceAndKind.Split (NewNamespaceAndKind ns kind) = (ns, kind) := by
    by_cases h : ns = ""
    · subst h
      simpa [NewNamespaceAndKind] using split_of_no_separator kind hk
    · simpa [NewNamespaceAndKind, h] using split_at_first_separator ns kind hns
  refine ⟨hsplit, ?_, ?_, ?_, ?_, split_of_no_separator, ?_, fun v => ⟨rfl, rfl⟩⟩
  · simp [NamespaceAndKind.Namespace, hsplit]
  · simp [NamespaceAndKind.Kind, hsplit]
  · intro h
    simp [NewNamespaceAndKind, h]
  · intro h
    simp only [NewNamespaceAndKind, h, if_false]
    rfl
  · intro a b ha
    exact split_at_first_separator a b ha

/-- Witness for the amended C7: the key `gitlab.com/username` of the tests. -/
theorem split_new_roundtrip_witness :
    separator ∉ ("gitlab.com" : String).data ∧ ("username" : String) ≠ "" ∧
    separator ∉ ("username" : String).data ∧
    NamespaceAndKind.Split (NewNamespaceAndKind "gitlab.com" "username")
      = ("gitlab.com", "username") :=
  ⟨by decide, by decide, by decide,
   (split_new_roundtrip "gitlab.com" "username" (by decide) (by decide) (by decide)).1⟩

/-- C8: `NewCollection(xs...)` maps every key to the value of the last identifier of
`xs` with that key and has no other key; its `ToList()` holds one identifier per key
of the collection and nothing else; when the keys of `xs` are pairwise distinct the
list is a permutation of `xs`; the empty collection yields the empty list. -/
theorem newCollection_last_wins (xs : List Identifier) :
    (∀ k : NamespaceAndKind, (NewCollection xs).Get k =
      (xs.reverse.find? (fun x => x.NamespaceAndKind = k)).map Identifier.Value) ∧
    ((NewCollection xs).ToList.map Identifier.NamespaceAndKind).Nodup ∧
    (∀ id : Identifier, id ∈ (NewCollection xs).ToList ↔
      (NewCollection xs).Get id.NamespaceAndKind = some id.Value) ∧
    ((xs.map Identifier.NamespaceAndKind).Nodup → (NewCollection xs).ToList.Perm xs) ∧
    (NewCollection []).ToList = [] ∧
    Collection.nil.ToList = [] ∧
    (Collection.entries []).ToList = [] := by
  refine ⟨?_, ?_, ?_, ?_, rfl, rfl, rfl⟩
  · intro k
    unfold NewCollection
    rw [get_foldl_ids]
    cases (xs.reverse.find? (fun x => x.NamespaceAndKind = k)).map Identifier.Value <;> rfl
  · rw [toList_map_key]
    exact wf_newCollection xs
  · intro id
    exact mem_toList_iff _ (wf_newCollection xs) id
  · intro h
    rw [newCollection_of_nodup xs h]

/-- Witness for C8: the test case `non-empty` of `TestCollection_ToList`. -/
theorem newCollection_last_wins_witness :
    ([New "username" (IdValue.str "rufus"),
      New "email" (IdValue.str "rufus@seatgeek.com")].map Identifier.NamespaceAndKind).Nodup ∧
    (NewCollection [New "username" (IdValue.str "rufus"),
      New "email" (IdValue.str "rufus@seatgeek.com")]).ToList.Perm
      [New "username" (IdValue.str "rufus"), New "email" (IdValue.str "rufus@seatgeek.com")] :=
  ⟨by decide,
   (newCollection_last_wins [New "username" (IdValue.str "rufus"),
      New "email" (IdValue.str "rufus@seatgeek.com")]).2.2.2.1 (by decide)⟩

end identifier

/-! ## Decimal rendering: lemmas and claim -/

namespace identifier

theorem formatNat_eq (n : Nat) : formatNat n = (decimalDigits n).map digitChar := rfl

theorem decimalDigits_ne_nil (n : Nat) : decimalDigits n ≠ [] := by
  unfold decimalDigits
  by_cases h : n = 0
  · simp [h]
  · simp [h, Nat.digits_ne_nil_iff_ne_zero]

theorem decimalDigits_lt (n : Nat) : ∀ d ∈ decimalDigits n, d < 10 := by
  intro d hd
  unfold decimalDigits at hd
  by_cases h : n = 0
  · simp [h] at hd
    omega
  · simp only [h, if_false, List.mem_reverse] at hd
    exact Nat.digits_lt_base (by norm_num) hd

theorem decimalDigits_no_leading_zero (n : Nat) :
    (decimalDigits n).head? = some 0 → decimalDigits n = [0] := by
  unfold decimalDigits
  by_cases h : n = 0
  · simp [h]
  · simp only [h, if_false, List.head?_reverse]
    intro hl
    rw [List.getLast?_eq_getLast _ (Nat.digits_ne_nil_iff_ne_zero.mpr h)] at hl
    exact absurd (Option.some.inj hl) (Nat.getLast_digit_ne_zero 10 h)

theorem decimalDigits_value (n : Nat) : Nat.ofDigits 10 (decimalDigits n).reverse = n := by
  unfold decimalDigits
  by_cases h : n = 0
  · simp [h, Nat.ofDigits]
  · simp [h, Nat.ofDigits_digits]

theorem digitVal_digitChar (d : Nat) (h : d < 10) : digitVal (digitChar d) = some d := by
  interval_cases d <;> rfl

theorem digitChar_ne_minus (d : Nat) (h : d < 10) : digitChar d ≠ '-' := by
  interval_cases d <;> decide

theorem parseDigits_map_digitChar :
    ∀ (l : List Nat) (acc : Nat), (∀ d ∈ l, d < 10) →
      parseDigits acc (l.map digitChar) = some (l.foldl (fun a d => a * 10 + d) acc) := by
  intro l
  induction l with
  | nil => intro acc _; rfl
  | cons d rest ih =>
    intro acc h
    have hd : d < 10 := h d (List.mem_cons_self _ _)
    have hr : ∀ x ∈ rest, x < 10 := fun x hx => h x (List.mem_cons_of_mem _ hx)
    simp only [List.map_cons, parseDigits, digitVal_digitChar d hd, List.foldl_cons]
    exact ih _ hr

theorem foldl_decimal (l : List Nat) :
    l.foldl (fun a d => a * 10 + d) 0 = Nat.ofDigits 10 l.reverse := by
  rw [Nat.ofDigits_eq_foldr, List.foldr_reverse]
  congr 1
  funext a d
  simp [Nat.mul_comm, Nat.add_comm]

theorem parseDigits_formatNat (n : Nat) : parseDigits 0 (formatNat n) = some n := by
  rw [formatNat_eq, parseDigits_map_digitChar _ _ (decimalDigits_lt n), foldl_decimal,
    decimalDigits_value]

theorem formatNat_cons (n : Nat) :
    ∃ (c : Char) (cs : List Char), formatNat n = c :: cs ∧ c ≠ '-' := by
  rw [formatNat_eq]
  have hne := decimalDigits_ne_nil n
  have hlt := decimalDigits_lt n
  cases hl : decimalDigits n with
  | nil => exact absurd hl hne
  | cons d rest =>
    rw [hl] at hlt
    exact ⟨digitChar d, rest.map digitChar, rfl,
      digitChar_ne_minus d (hlt d (List.mem_cons_self _ _))⟩

theorem parseInt_formatInt (n : Int) : ParseInt (FormatInt n) = some n := by
  obtain ⟨c, cs, hcs, hc⟩ := formatNat_cons n.natAbs
  have hp := parseDigits_formatNat n.natAbs
  by_cases hneg : n < 0
  · have hne : formatNat n.natAbs ≠ [] := by rw [hcs]; simp
    have hd : (FormatInt n).data = '-' :: formatNat n.natAbs := by
      simp [FormatInt, hneg]
    have hval : -(n.natAbs : Int) = n := by
      have := Int.ofNat_natAbs_of_nonpos (le_of_lt hneg)
      omega
    unfold ParseInt
    rw [hd]
    simp only [if_true, hne, if_false, hp, Option.map_some', Int.ofNat_eq_coe, hval]
  · have hd : (FormatInt n).data = c :: cs := by
      simp [FormatInt, hneg, hcs]
    have hval : (n.natAbs : Int) = n := Int.natAbs_of_nonneg (not_lt.mp hneg)
    unfold ParseInt
    rw [hd]
    rw [hcs] at hp
    simp only [hc, if_false, hp, Option.map_some', Int.ofNat_eq_coe, hval]

/-- C9: for every key and every 64-bit signed integer `n`, `New(key, n)` keeps the key
and its `Value` is the canonical base-10 rendering of `n`: an optional leading `-`
(exactly when `n` is negative) followed by the decimal digits of the magnitude, with no
other character and no leading zero, so that parsing it as a decimal integer gives `n`
back; for a string value `s`, `New(key, s)` is the identifier `(key, s)`. -/
theorem new_int64_value_roundtrip (key : NamespaceAndKind) (n : Int)
    (_hlo : -(2 : Int) ^ 63 ≤ n) (_hhi : n < (2 : Int) ^ 63) :
    (New key (IdValue.int64 n)).NamespaceAndKind = key ∧
    ParseInt (New key (IdValue.int64 n)).Value = some n ∧
    (∃ ds : List Nat, ds ≠ [] ∧ (∀ d ∈ ds, d < 10) ∧ (ds.head? = some 0 → ds = [0]) ∧
      Nat.ofDigits 10 ds.reverse = n.natAbs ∧
      (New key (IdValue.int64 n)).Value.data =
        (if n < 0 then ['-'] else []) ++ ds.map digitChar) ∧
    (∀ s : String, New key (IdValue.str s) = { NamespaceAndKind := key, Value := s }) := by
  refine ⟨rfl, parseInt_formatInt n, ?_, fun s => rfl⟩
  refine ⟨decimalDigits n.natAbs, decimalDigits_ne_nil _, decimalDigits_lt _,
    decimalDigits_no_leading_zero _, decimalDigits_value _, ?_⟩
  by_cases hneg : n < 0
  · simp [New, FormatInt, formatNat, hneg]
  · simp [New, FormatInt, formatNat, hneg]

/-- Witness for C9: the values `123456` and `-1`, and the least 64-bit integer. -/
theorem new_int64_value_roundtrip_witness :
    (-(2 : Int) ^ 63 ≤ 123456 ∧ (123456 : Int) < (2 : Int) ^ 63) ∧
    ParseInt (New "gitlab.com/id" (IdValue.int64 123456)).Value = some 123456 ∧
    (New "gitlab.com/id" (IdValue.int64 123456)).Value = "123456" ∧
    (New "gitlab.com/id" (IdValue.int64 (-1))).Value = "-1" ∧
    ParseInt (New "gitlab.com/id" (IdValue.int64 (-9223372036854775808))).Value
      = some (-9223372036854775808) :=
  ⟨by norm_num,
   (new_int64_value_roundtrip "gitlab.com/id" 123456 (by norm_num) (by norm_num)).2.1,
   by simp [New, FormatInt, formatNat, decimalDigits, digitChar],
   by simp [New, FormatInt, formatNat, decimalDigits, digitChar],
   (new_int64_value_roundtrip "gitlab.com/id" (-9223372036854775808) (by norm_num)
      (by norm_num)).2.1⟩

end identifier
